/-
Verification of the dummy-data-generation pipeline (src/generate_data.py)
against its natural-language specification.

The Python source is shallowly embedded: every generator becomes an
executable Lean function over explicit row lists.  All randomness
(`random.choice`, `random.randint`, `random.sample`, `random.random`,
the faker string draws) is modelled by quantifying over explicit
oracle structures whose fields are streams of values, one stream per
call site; a theorem quantified over all oracles covers every possible
behaviour of the pseudo-random source.  Monetary amounts are modelled
in ℚ (the decimal arithmetic the docstrings describe); `round(x, 2)`
becomes `round2`.  Calendar dates are modelled as integers counting
days from 2024-06-01, the start of the fixed generation window used by
the booking and availability generators.
-/
import Mathlib

namespace GenData

/-! # Definitions -/

/-- Python `round(x, 2)` modelled over ℚ: round to two decimal places.
(Python uses banker's rounding on binary floats; none of the verified
facts sit at a rounding tie, so the tie-breaking convention is
irrelevant to every theorem below.) -/
def round2 (q : ℚ) : ℚ := (round (q * 100) : ℚ) / 100

/-- Python `str.lower` on a single ASCII character. -/
def lowerChar (c : Char) : Char :=
  if 65 ≤ c.toNat ∧ c.toNat ≤ 90 then Char.ofNat (c.toNat + 32) else c

/-- Python `str.lower`, modelled character-wise (the property-type
strings are ASCII). -/
def pyLower (s : String) : String := ⟨s.data.map lowerChar⟩

/-! ## generate_dynamic_price (src/generate_data.py lines 1301-1314) -/

/-- The fixed base-price lookup table keyed by property type. -/
def basePriceTable : List (String × ℚ) :=
  [("apartment", 50), ("villa", 100), ("house", 80),
   ("studio", 40), ("cabin", 60), ("boathouse", 90)]

/-- `generate_dynamic_price(property_type, square_footage, host_rating)`:
base price looked up on the lower-cased property type (default 50),
modifier `square_footage/1000 + host_rating/5`, rounded product,
clamped into [50, 1000]. -/
def generate_dynamic_price (property_type : String)
    (square_footage host_rating : ℚ) : ℚ :=
  let base_price := (basePriceTable.lookup (pyLower property_type)).getD 50
  let price_modifier := square_footage / 1000 + host_rating / 5
  let final_price := round2 (base_price * price_modifier)
  max 50 (min final_price 1000)

/-! ## populate_commission_table (lines 1679-1730) and the booking
total-amount formula (lines 399-405) -/

/-- The booking fields consumed by the commission generator. -/
structure BookingRec where
  bookingId : ℕ
  bookingStatus : String
  totalAmount : ℚ
  deriving DecidableEq, Repr, Inhabited

/-- `total_amount = round(base - base*(discount/100), 2)` with
`base = num_nights * price_per_night`, from populate_booking_table. -/
def bookingTotalAmount (num_nights : ℕ) (price_per_night discount : ℚ) : ℚ :=
  let base_amount := (num_nights : ℚ) * price_per_night
  round2 (base_amount - base_amount * (discount / 100))

/-- The tiered commission percentage: 5 above 1000, 10 above 500, else 15. -/
def commissionPercentage (total_amount : ℚ) : ℚ :=
  if total_amount > 1000 then 5
  else if total_amount > 500 then 10
  else 15

structure CommissionRow where
  bookingId : ℕ
  amount : ℚ
  deriving DecidableEq, Repr

/-- `populate_commission_table`: keep confirmed bookings, skip
non-positive amounts, apply the tiered rate; the final referential
check (commission ids ⊆ booking ids) degrades to an empty table when
violated, mirroring the source's ValueError path. -/
def populate_commission_table (bookings : List BookingRec) : List CommissionRow :=
  if bookings = [] then []
  else
    let confirmed := bookings.filter (fun b => b.bookingStatus = "confirmed")
    if confirmed = [] then []
    else
      let commissions := confirmed.filterMap (fun b =>
        if b.totalAmount ≤ 0 then none
        else some ⟨b.bookingId,
          round2 (b.totalAmount * (commissionPercentage b.totalAmount / 100))⟩)
      if commissions.all (fun c => bookings.any (fun b => b.bookingId = c.bookingId))
      then commissions
      else []

/-! ## populate_user_table (lines 38-110) -/

/-- Oracle for the per-user random/faker draws of populate_user_table.
Each stream is indexed by the UserID of the row being built; the role
assignment consumes none of them, so any indexing scheme covers all
behaviours of the random source. -/
structure UserEnv where
  nameS : ℕ → String
  localPart : ℕ → String
  domIdx : ℕ → ℕ
  passwordS : ℕ → String
  phoneB : ℕ → Bool
  phoneDigits : ℕ → String
  dobS : ℕ → String
  genderB : ℕ → Bool
  genderIdx : ℕ → ℕ
  street : ℕ → String
  cityS : ℕ → String
  countryS : ℕ → String
  regDate : ℕ → String
  lastLoginB : ℕ → Bool
  lastLoginS : ℕ → String
  statusIdx : ℕ → ℕ

def email_providers : List String :=
  ["gmail.com", "yahoo.com", "outlook.com", "hotmail.com", "icloud.com"]

/-- A generated user row. -/
structure UserRow where
  userId : ℕ
  name : String
  email : String
  password : String
  phone : Option String
  userType : String
  dateOfBirth : String
  gender : Option String
  address : String
  registrationDate : String
  lastLogin : Option String
  userStatus : String
  deriving DecidableEq, Repr

/-- One row of the users loop body, minus the role assignment. -/
def mkUserRow (env : UserEnv) (uid : ℕ) (user_type : String) : UserRow :=
  { userId := uid
    name := env.nameS uid
    email := env.localPart uid ++ "@" ++
      (email_providers.getD (env.domIdx uid % email_providers.length) "")
    password := env.passwordS uid
    phone := if env.phoneB uid then some (env.phoneDigits uid) else none
    userType := user_type
    dateOfBirth := env.dobS uid
    gender := if env.genderB uid then
        some ((["Male", "Female", "Other"].getD (env.genderIdx uid % 3) ""))
      else none
    address := env.street uid ++ ", " ++ env.cityS uid ++ ", " ++ env.countryS uid
    registrationDate := env.regDate uid
    lastLogin := if env.lastLoginB uid then some (env.lastLoginS uid) else none
    userStatus := ["active", "inactive"].getD (env.statusIdx uid % 2) "" }

/-- The role-assignment loop of populate_user_table: fill the admin
quota first, then the host quota, then guests, threading the three
counters; returns the rows and the final counter values. -/
def userLoop (env : UserEnv) (num_admins num_hosts : ℕ) :
    List ℕ → ℕ → ℕ → ℕ → List UserRow × ℕ × ℕ × ℕ
  | [], aC, hC, gC => ([], aC, hC, gC)
  | uid :: rest, aC, hC, gC =>
    if aC < num_admins then
      let r := userLoop env num_admins num_hosts rest (aC + 1) hC gC
      (mkUserRow env uid "admin" :: r.1, r.2)
    else if hC < num_hosts then
      let r := userLoop env num_admins num_hosts rest aC (hC + 1) gC
      (mkUserRow env uid "host" :: r.1, r.2)
    else
      let r := userLoop env num_admins num_hosts rest aC hC (gC + 1)
      (mkUserRow env uid "guest" :: r.1, r.2)

/-- `populate_user_table(num_users, min_admins)`.
`total_users = max(max(num_users, min_admins*20), num_users)`;
`num_admins = min_admins`; `num_hosts = max(5, int(total*0.25))`
(`total*0.25` is exact in binary, so `int` truncation is `total / 4`);
the two trailing `assert`s raise on failure, degrading to the empty
error table. -/
def populate_user_table (env : UserEnv) (num_users min_admins : ℕ) : List UserRow :=
  let min_users_needed := max num_users (min_admins * 20)
  let total_users := max min_users_needed num_users
  let num_admins := min_admins
  let num_hosts := max 5 (total_users / 4)
  let r := userLoop env num_admins num_hosts (List.range' 1 total_users) 0 0 0
  if min_admins ≤ r.2.1 ∧ r.2.1 + r.2.2.1 + r.2.2.2 = total_users
  then r.1 else []

/-- An arbitrary concrete oracle, used for closed counterexamples. -/
def userEnv0 : UserEnv :=
  { nameS := fun _ => "", localPart := fun _ => "", domIdx := fun _ => 0
    passwordS := fun _ => "", phoneB := fun _ => false, phoneDigits := fun _ => ""
    dobS := fun _ => "", genderB := fun _ => false, genderIdx := fun _ => 0
    street := fun _ => "", cityS := fun _ => "", countryS := fun _ => ""
    regDate := fun _ => "", lastLoginB := fun _ => false, lastLoginS := fun _ => ""
    statusIdx := fun _ => 0 }

/-! ## DataFrames with an explicit column set

pandas derives the column set of `pd.DataFrame(list_of_records)` from
the records themselves, so an empty record list yields a frame with no
columns; the generators' `except` branches instead build empty frames
with an explicit column list.  Both shapes are captured by `DF`. -/

structure DF (ρ : Type) where
  cols : List String
  rows : List ρ
  deriving DecidableEq, Repr

/-- `pd.DataFrame(records)`: the column set is derived from the
records, so no rows means no columns. -/
def dfFromRecords {ρ : Type} (cols : List String) (rows : List ρ) : DF ρ :=
  ⟨if rows.isEmpty then [] else cols, rows⟩

/-- `random.sample(xs, k)` / `DataFrame.sample(k)`: draw `k` elements
without replacement (k distinct positions); raises — modelled as
`none` — when the population is smaller than `k`. -/
def pySample {α : Type} [Inhabited α] (pick : ℕ → ℕ) :
    List α → ℕ → ℕ → Option (List α)
  | _, 0, _ => some []
  | xs, k + 1, i =>
    if xs.length = 0 then none
    else
      let idx := pick i % xs.length
      let x := xs.getD idx default
      (pySample pick (xs.eraseIdx idx) k (i + 1)).map (fun r => x :: r)

/-- `fake.date_between(start, stop)`: a date drawn from the inclusive
range; the empty range raises (the spec leaves this case open),
modelled as `none`. -/
def dateBetween (draw : ℕ) (start stop : ℤ) : Option ℤ :=
  if start ≤ stop then some (start + (draw : ℤ) % (stop - start + 1)) else none

/-! ## populate_availability_table (lines 541-590)

Dates are integers counting days from 2024-06-01; the fixed window is
`[0, 29]` (June 1 to June 30, 2024). -/

/-- The booking fields consumed by the availability generator. -/
structure AvBooking where
  accommodationId : ℕ
  bookingStatus : String
  checkInDate : ℤ
  checkOutDate : ℤ
  deriving DecidableEq, Repr, Inhabited

structure AvailabilityRow where
  accommodationId : ℕ
  date : ℤ
  isAvailable : Bool
  deriving DecidableEq, Repr

def availabilityCols : List String := ["AccommodationID", "Date", "IsAvailable"]

/-- `availability_dates = {start + i: True for i in range(30)}`, as an
insertion-ordered association list. -/
def availInit : List (ℤ × Bool) :=
  (List.range 30).map (fun (i : ℕ) => ((i : ℤ), true))

/-- `availability_dates[d] = False` when the key is present. -/
def markDay (d : ℤ) (m : List (ℤ × Bool)) : List (ℤ × Bool) :=
  m.map (fun p => if p.1 = d then (p.1, false) else p)

/-- Mark every day in `[check_in, check_out)` unavailable
(`for d in range((check_out - check_in).days)`). -/
def markBooking (ci co : ℤ) (m : List (ℤ × Bool)) : List (ℤ × Bool) :=
  (List.range (co - ci).toNat).foldl (fun m2 (i : ℕ) => markDay (ci + (i : ℤ)) m2) m

/-- The per-accommodation date dictionary after processing all of the
accommodation's confirmed bookings. -/
def availabilityDatesFor (aid : ℕ) (bookings : List AvBooking) : List (ℤ × Bool) :=
  let confirmed := bookings.filter
    (fun b => b.accommodationId = aid ∧ b.bookingStatus = "confirmed")
  confirmed.foldl (fun m b => markBooking b.checkInDate b.checkOutDate m) availInit

/-- The availability rows emitted for one accommodation. -/
def availRowsFor (aid : ℕ) (bookings : List AvBooking) : List AvailabilityRow :=
  (availabilityDatesFor aid bookings).map (fun p => ⟨aid, p.1, p.2⟩)

/-- `populate_availability_table`: the explicit empty-input checks
raise, degrading to the empty table with the full column set. -/
def populate_availability_table (accs : List ℕ) (bookings : List AvBooking) :
    DF AvailabilityRow :=
  if accs = [] ∨ bookings = [] then ⟨availabilityCols, []⟩
  else dfFromRecords availabilityCols
    (accs.flatMap (fun aid => availRowsFor aid bookings))

/-! ## populate_cancellation_table (lines 462-515) -/

/-- The booking fields consumed by the cancellation generator. -/
structure CanBooking where
  bookingId : ℕ
  bookingStatus : String
  checkInDate : ℤ
  deriving DecidableEq, Repr, Inhabited

/-- The bookings frame as the cancellation generator sees it: the
rows, plus whether the required columns (BookingStatus, BookingID,
CheckInDate) are present — indexing a missing column raises KeyError. -/
structure BookingsDF where
  hasRequiredCols : Bool
  rows : List CanBooking
  deriving DecidableEq, Repr

structure CancellationRow where
  bookingId : ℕ
  cancellationDate : ℤ
  cancellationReason : String
  deriving DecidableEq, Repr

def cancellationCols : List String :=
  ["BookingID", "CancellationDate", "CancellationReason"]

def cancellation_reasons : List String :=
  ["Change of travel plans", "Unexpected personal reasons",
   "Booking made by mistake", "Found a better alternative",
   "Health issues", "Travel restrictions", "Work-related obligations",
   "Accommodation reviews were concerning", "Budget constraints",
   "Host unresponsive or uncooperative"]

/-- 2024-01-01 in days from 2024-06-01 (152 days earlier). -/
def jan1_2024 : ℤ := -152

/-- Oracle for the cancellation generator's draws. -/
structure CanEnv where
  samplePick : ℕ → ℕ
  dateIdx : ℕ → ℕ
  reasonIdx : ℕ → ℕ

/-- The row-construction loop of populate_cancellation_table; a raise
anywhere (empty date range) aborts the whole generator. -/
def buildCancellations (env : CanEnv) : List CanBooking → ℕ → Option (List CancellationRow)
  | [], _ => some []
  | b :: rest, i =>
    match dateBetween (env.dateIdx i) jan1_2024 (b.checkInDate - 1) with
    | none => none
    | some d =>
      (buildCancellations env rest (i + 1)).map
        (fun rs => ⟨b.bookingId, d,
          cancellation_reasons.getD
            (env.reasonIdx i % cancellation_reasons.length) ""⟩ :: rs)

/-- `populate_cancellation_table(df_bookings, min_cancellations)`:
already-cancelled bookings first, topped up with a sample of the
non-cancelled ones; any raise degrades to the empty table with the
explicit three-column schema, while the success path derives its
columns from the records (pandas). -/
def populate_cancellation_table (env : CanEnv) (df : BookingsDF)
    (min_cancellations : ℕ) : DF CancellationRow :=
  if df.hasRequiredCols = false then ⟨cancellationCols, []⟩
  else
    let cancelled := df.rows.filter (fun b => b.bookingStatus = "cancelled")
    let pool :=
      if cancelled.length < min_cancellations then
        let eligible := df.rows.filter (fun b => ¬ b.bookingStatus = "cancelled")
        (pySample env.samplePick eligible
          (min (min_cancellations - cancelled.length) eligible.length) 0).map
          (fun additional => cancelled ++ additional)
      else some cancelled
    match pool with
    | none => ⟨cancellationCols, []⟩
    | some pool =>
      match buildCancellations env pool 0 with
      | none => ⟨cancellationCols, []⟩
      | some rows => dfFromRecords cancellationCols rows

/-- An arbitrary concrete cancellation oracle. -/
def canEnv0 : CanEnv :=
  { samplePick := fun _ => 0, dateIdx := fun _ => 0, reasonIdx := fun _ => 0 }

/-! ## populate_accommodation_house_rule_table (lines 945-997) and
populate_accommodation_amenity_table (lines 1397-1454) -/

/-- Oracle for the link-table generators: the phase-1 child pick per
parent index and the phase-2 (parent, child) picks per iteration. -/
structure LinkEnv where
  pick1 : ℕ → ℕ
  pick2p : ℕ → ℕ
  pick2c : ℕ → ℕ

/-- `set.add`: Python set insertion (duplicates rejected). -/
def setAdd (p : ℕ × ℕ) (s : List (ℕ × ℕ)) : List (ℕ × ℕ) :=
  if p ∈ s then s else p :: s

/-- Phase 1 of populate_accommodation_house_rule_table: one random
rule per accommodation, decrementing `total_entries` (an int that the
source lets go non-positive) and breaking once it reaches ≤ 0. -/
def hrPhase1 (env : LinkEnv) (house_rules : List ℕ) :
    List ℕ → ℕ → ℤ → List (ℕ × ℕ) → List (ℕ × ℕ) × ℤ
  | [], _, t, s => (s, t)
  | aid :: rest, i, t, s =>
    let rule := house_rules.getD (env.pick1 i % house_rules.length) 0
    let s2 := setAdd (aid, rule) s
    let t2 := t - 1
    if t2 ≤ 0 then (s2, t2) else hrPhase1 env house_rules rest (i + 1) t2 s2

/-- Phase 2: `while total_entries > 0` draw random pairs, accepting
only unseen ones.  The source loop has no exhaustion check, so it
need not terminate; the embedding runs on fuel and returns `none`
when the fuel is spent with quota remaining. -/
def hrPhase2 (env : LinkEnv) (accs house_rules : List ℕ) :
    ℕ → ℕ → ℤ → List (ℕ × ℕ) → Option (List (ℕ × ℕ))
  | 0, _, t, s => if t ≤ 0 then some s else none
  | fuel + 1, iter, t, s =>
    if t ≤ 0 then some s
    else
      let a := accs.getD (env.pick2p iter % accs.length) 0
      let r := house_rules.getD (env.pick2c iter % house_rules.length) 0
      if (a, r) ∈ s then hrPhase2 env accs house_rules fuel (iter + 1) t s
      else hrPhase2 env accs house_rules fuel (iter + 1) (t - 1) (setAdd (a, r) s)

/-- `populate_accommodation_house_rule_table`; the output rows are the
accumulated (AccommodationID, HouseRuleID) set.  Empty inputs raise,
degrading to the empty table. -/
def populate_accommodation_house_rule_table (env : LinkEnv)
    (accs house_rules : List ℕ) (total_entries : ℤ) (fuel : ℕ) :
    Option (List (ℕ × ℕ)) :=
  if accs = [] ∨ house_rules = [] then some []
  else
    let r := hrPhase1 env house_rules accs 0 total_entries []
    hrPhase2 env accs house_rules fuel 0 r.2 r.1

/-- A row of the accommodation-amenity link table. -/
structure AmenRow where
  accommodationAmenityId : ℕ
  accommodationId : ℕ
  amenityId : ℕ
  deriving DecidableEq, Repr

/-- Phase 1 of populate_accommodation_amenity_table: a
`random.sample(k=1)` amenity per accommodation, appended to a list
(no set here) with a sequential id. -/
def amPhase1 (env : LinkEnv) (amens : List ℕ) :
    List ℕ → ℕ → ℕ → ℤ → List AmenRow → List AmenRow × ℕ × ℤ
  | [], _, nid, t, rows => (rows, nid, t)
  | aid :: rest, i, nid, t, rows =>
    let amen := amens.getD (env.pick1 i % amens.length) 0
    let rows2 := rows ++ [⟨nid, aid, amen⟩]
    let t2 := t - 1
    if t2 ≤ 0 then (rows2, nid + 1, t2)
    else amPhase1 env amens rest (i + 1) (nid + 1) t2 rows2

/-- Phase 2: draw random pairs while quota remains, rejecting pairs
already present (an `any` scan over the list); no exhaustion check,
so fuel-based like `hrPhase2`. -/
def amPhase2 (env : LinkEnv) (accs amens : List ℕ) :
    ℕ → ℕ → ℕ → ℤ → List AmenRow → Option (List AmenRow)
  | 0, _, _, t, rows => if t ≤ 0 then some rows else none
  | fuel + 1, iter, nid, t, rows =>
    if t ≤ 0 then some rows
    else
      let a := accs.getD (env.pick2p iter % accs.length) 0
      let m := amens.getD (env.pick2c iter % amens.length) 0
      if rows.any (fun e => e.accommodationId = a ∧ e.amenityId = m)
      then amPhase2 env accs amens fuel (iter + 1) nid t rows
      else amPhase2 env accs amens fuel (iter + 1) (nid + 1) (t - 1)
        (rows ++ [⟨nid, a, m⟩])

/-- `populate_accommodation_amenity_table` (ids start at 1). -/
def populate_accommodation_amenity_table (env : LinkEnv)
    (accs amens : List ℕ) (total_entries : ℤ) (fuel : ℕ) :
    Option (List AmenRow) :=
  if accs = [] ∨ amens = [] then some []
  else
    let r := amPhase1 env amens accs 0 1 total_entries []
    amPhase2 env accs amens fuel 0 r.2.1 r.2.2 r.1

/-- An arbitrary concrete link oracle. -/
def linkEnv0 : LinkEnv :=
  { pick1 := fun _ => 0, pick2p := fun _ => 0, pick2c := fun _ => 0 }

/-! ## populate_photo_table (lines 616-666) -/

/-- Oracle for the photo generator. -/
structure PhotoEnv where
  nPick : ℕ → ℕ
  sel : ℕ → ℕ
  url1 : ℕ → ℕ → String
  url2 : ℕ → String

structure PhotoRow where
  photoId : ℕ
  accommodationId : ℕ
  photoURL : String
  deriving DecidableEq, Repr

/-- The per-accommodation loop of populate_photo_table:
`num_photos = randint(1, min(10, total_photos))` photos each
(`randint` raises when `min(10, total_photos) < 1` — modelled as
`none`), decrementing the remaining quota and breaking at ≤ 0. -/
def photoPhase1 (env : PhotoEnv) :
    List ℕ → ℕ → ℕ → ℤ → List PhotoRow → Option (List PhotoRow × ℕ × ℤ)
  | [], _, pid, t, rows => some (rows, pid, t)
  | aid :: rest, i, pid, t, rows =>
    if min 10 t < 1 then none
    else
      let n := 1 + env.nPick i % (min 10 t).toNat
      let rows2 := rows ++ (List.range n).map
        (fun (j : ℕ) => (⟨pid + j, aid, env.url1 i j⟩ : PhotoRow))
      let t2 := t - n
      if t2 ≤ 0 then some (rows2, pid + n, t2)
      else photoPhase1 env rest (i + 1) (pid + n) t2 rows2

/-- The top-up loop: one photo per remaining quota unit, to a randomly
chosen accommodation. -/
def photoPhase2 (env : PhotoEnv) (accIds : List ℕ) (pid : ℕ) (t : ℤ) :
    List PhotoRow :=
  (List.range t.toNat).map (fun (j : ℕ) =>
    (⟨pid + j, accIds.getD (env.sel j % accIds.length) 0, env.url2 j⟩ : PhotoRow))

/-- `populate_photo_table` (photo ids start at 1); raises — empty
error table — on an empty accommodations input or a raising randint. -/
def populate_photo_table (env : PhotoEnv) (accIds : List ℕ)
    (total_photos : ℤ) : List PhotoRow :=
  if accIds = [] then []
  else
    match photoPhase1 env accIds 0 1 total_photos [] with
    | none => []
    | some (rows, pid, t) => rows ++ photoPhase2 env accIds pid t

/-- An arbitrary concrete photo oracle. -/
def photoEnv0 : PhotoEnv :=
  { nPick := fun _ => 0, sel := fun _ => 0, url1 := fun _ _ => "", url2 := fun _ => "" }

/-! ## populate_host_response_table (lines 1606-1649) -/

/-- Oracle for the host-response generator. -/
structure HREnv where
  coin : ℕ → Bool
  samplePick : ℕ → ℕ
  text1 : ℕ → String
  text2 : ℕ → String

structure HostResponseRow where
  reviewId : ℕ
  responseText : String
  deriving DecidableEq, Repr

/-- The first pass: each review gets a response with probability 0.5
(the coin stream), in review order. -/
def hrFirstPass (env : HREnv) : List ℕ → ℕ → List HostResponseRow
  | [], _ => []
  | rid :: rest, i =>
    if env.coin i then ⟨rid, env.text1 i⟩ :: hrFirstPass env rest (i + 1)
    else hrFirstPass env rest (i + 1)

/-- `populate_host_response_table`: first pass, then — if fewer than
`min_responses` rows — a `random.sample` of ALL eligible reviews (the
already-responded ones included) to top up. -/
def populate_host_response_table (env : HREnv) (reviews : List ℕ)
    (min_responses : ℕ) : List HostResponseRow :=
  if reviews = [] then []
  else if reviews.length < min_responses then []
  else
    let first := hrFirstPass env reviews 0
    let needed := min_responses - first.length
    if 0 < needed then
      match pySample env.samplePick reviews needed 0 with
      | none => []
      | some additional =>
        first ++ additional.enum.map
          (fun p => (⟨p.2, env.text2 p.1⟩ : HostResponseRow))
    else first

/-- An arbitrary concrete host-response oracle whose coin accepts only
the first review. -/
def hrEnv0 : HREnv :=
  { coin := fun i => i == 0, samplePick := fun _ => 0
    text1 := fun _ => "", text2 := fun _ => "" }

/-! # Theorems -/

/-- `round2` is the identity on quantities that are already exact to
two decimal places. -/
theorem round2_eq_self {q : ℚ} {n : ℤ} (h : q * 100 = (n : ℚ)) :
    round2 q = q := by
  unfold round2
  rw [h, round_intCast, ← h]
  field_simp

theorem populate_commission_table_mem {bookings : List BookingRec}
    {c : CommissionRow} (hc : c ∈ populate_commission_table bookings) :
    ∃ b ∈ bookings, b.bookingId = c.bookingId ∧
      b.bookingStatus = "confirmed" ∧ 0 < b.totalAmount ∧
      c.amount = round2 (b.totalAmount * (commissionPercentage b.totalAmount / 100)) := by
  simp only [populate_commission_table] at hc
  split at hc
  · simp at hc
  · split at hc
    · simp at hc
    · split at hc
      · rcases List.mem_filterMap.1 hc with ⟨b, hb, hbc⟩
        rcases List.mem_filter.1 hb with ⟨hbmem, hbstat⟩
        split at hbc
        · exact absurd hbc (by simp)
        · rename_i hpos
          refine ⟨b, hbmem, ?_, by simpa using hbstat, by push_neg at hpos; exact hpos, ?_⟩ <;>
            (injection hbc with hbc; rw [← hbc])
      · simp at hc

/-- C8: a booking with pricePerNight 100, 3 nights, discount 10 has
totalAmount 270; a confirmed booking with totalAmount 270 yields a
commission of 40.5 (the 15% tier); the rate is 5% above 1000, 10%
above 500, 15% otherwise; and every commission row comes from a
confirmed booking with positive totalAmount, so non-positive bookings
produce no commission row. -/
theorem C8_commission_tiering :
    bookingTotalAmount 3 100 10 = 270 ∧
    populate_commission_table [⟨1, "confirmed", 270⟩] = [⟨1, 81/2⟩] ∧
    (∀ a : ℚ, 1000 < a → commissionPercentage a = 5) ∧
    (∀ a : ℚ, 500 < a → a ≤ 1000 → commissionPercentage a = 10) ∧
    (∀ a : ℚ, a ≤ 500 → commissionPercentage a = 15) ∧
    (∀ (bookings : List BookingRec) (c : CommissionRow),
      c ∈ populate_commission_table bookings →
      ∃ b ∈ bookings, b.bookingId = c.bookingId ∧
        b.bookingStatus = "confirmed" ∧ 0 < b.totalAmount) := by
  refine ⟨?_, ?_, ?_, ?_, ?_, ?_⟩
  · have h : bookingTotalAmount 3 100 10 = round2 270 := by
      norm_num [bookingTotalAmount]
    rw [h, round2_eq_self (n := 27000) (by norm_num)]
  · have h : commissionPercentage 270 = 15 := by norm_num [commissionPercentage]
    simp only [populate_commission_table, List.filter, List.filterMap, h]
    norm_num
    exact round2_eq_self (n := 4050) (by norm_num)
  · intro a ha
    simp [commissionPercentage, ha]
  · intro a ha ha1
    simp [commissionPercentage, ha, not_lt.2 ha1]
  · intro a ha
    have h1000 : ¬ (1000 : ℚ) < a := not_lt.2 (ha.trans (by norm_num))
    simp [commissionPercentage, not_lt.2 ha, h1000]
  · intro bookings c hc
    obtain ⟨b, hb, h1, h2, h3, _⟩ := populate_commission_table_mem hc
    exact ⟨b, hb, h1, h2, h3⟩

/-- Witness for C8: the tier hypotheses are satisfiable at 1200, 600 and 270. -/
theorem C8_commission_tiering_witness :
    commissionPercentage 1200 = 5 ∧ commissionPercentage 600 = 10 ∧
    commissionPercentage 270 = 15 :=
  ⟨C8_commission_tiering.2.2.1 1200 (by norm_num),
   C8_commission_tiering.2.2.2.1 600 (by norm_num) (by norm_num),
   C8_commission_tiering.2.2.2.2.1 270 (by norm_num)⟩

/-- C9: generate_dynamic_price is a (deterministic) function embedding;
at ("villa", 2000, 5.0) it returns exactly 300; its result always lies
in [50, 1000]; and any property type outside the lookup table uses
base price 50. -/
theorem C9_dynamic_price :
    generate_dynamic_price "villa" 2000 5 = 300 ∧
    (∀ (pt : String) (s r : ℚ),
      50 ≤ generate_dynamic_price pt s r ∧ generate_dynamic_price pt s r ≤ 1000) ∧
    (∀ (pt : String) (s r : ℚ), basePriceTable.lookup (pyLower pt) = none →
      generate_dynamic_price pt s r =
        max 50 (min (round2 (50 * (s / 1000 + r / 5))) 1000)) := by
  refine ⟨?_, ?_, ?_⟩
  · have hl : pyLower "villa" = "villa" := by decide
    have hlk : basePriceTable.lookup "villa" = some 100 := by decide
    simp only [generate_dynamic_price, hl, hlk, Option.getD_some]
    rw [show (100 : ℚ) * (2000 / 1000 + 5 / 5) = 300 by norm_num,
      round2_eq_self (n := 30000) (by norm_num)]
    norm_num
  · intro pt s r
    constructor
    · exact le_max_left _ _
    · simp only [generate_dynamic_price, max_le_iff]
      exact ⟨by norm_num, min_le_right _ _⟩
  · intro pt s r hpt
    simp [generate_dynamic_price, hpt]

/-- Witness for C9: "igloo" is outside the base-price table, and the
unknown-type clause applies to it. -/
theorem C9_dynamic_price_witness :
    (50 ≤ generate_dynamic_price "igloo" 2000 5 ∧
      generate_dynamic_price "igloo" 2000 5 ≤ 1000) ∧
    generate_dynamic_price "igloo" 2000 5 =
      max 50 (min (round2 (50 * ((2000 : ℚ) / 1000 + (5 : ℚ) / 5))) 1000) :=
  ⟨C9_dynamic_price.2.1 "igloo" 2000 5,
   C9_dynamic_price.2.2 "igloo" 2000 5 (by decide)⟩

/-! ## populate_user_table lemmas -/

/-- The final counter values of the users loop. -/
theorem userLoop_counters (env : UserEnv) (nA nH : ℕ) :
    ∀ (ids : List ℕ) (aC hC gC : ℕ),
      (userLoop env nA nH ids aC hC gC).2 =
        (aC + min (nA - aC) ids.length,
         hC + min (nH - hC) (ids.length - min (nA - aC) ids.length),
         gC + (ids.length - min (nA - aC) ids.length -
           min (nH - hC) (ids.length - min (nA - aC) ids.length)))
  | [], aC, hC, gC => by simp [userLoop]
  | uid :: rest, aC, hC, gC => by
    by_cases h1 : aC < nA
    · simp only [userLoop, if_pos h1, userLoop_counters env nA nH rest (aC + 1) hC gC]
      refine Prod.ext ?_ (Prod.ext ?_ ?_) <;> simp <;> omega
    · by_cases h2 : hC < nH
      · simp only [userLoop, if_neg h1, if_pos h2,
          userLoop_counters env nA nH rest aC (hC + 1) gC]
        refine Prod.ext ?_ (Prod.ext ?_ ?_) <;> simp <;> omega
      · simp only [userLoop, if_neg h1, if_neg h2,
          userLoop_counters env nA nH rest aC hC (gC + 1)]
        refine Prod.ext ?_ (Prod.ext ?_ ?_) <;> simp <;> omega

/-- Admin count of the users loop output. -/
theorem userLoop_count_admin (env : UserEnv) (nA nH : ℕ) :
    ∀ (ids : List ℕ) (aC hC gC : ℕ),
      ((userLoop env nA nH ids aC hC gC).1.map (fun u => u.userType)).count "admin" =
        min (nA - aC) ids.length
  | [], _, _, _ => by simp [userLoop]
  | uid :: rest, aC, hC, gC => by
    by_cases h1 : aC < nA
    · simp [userLoop, h1, mkUserRow, userLoop_count_admin env nA nH rest (aC + 1) hC gC]
      omega
    · by_cases h2 : hC < nH
      · simp [userLoop, h1, h2, mkUserRow, userLoop_count_admin env nA nH rest aC (hC + 1) gC]
        omega
      · simp [userLoop, h1, h2, mkUserRow, userLoop_count_admin env nA nH rest aC hC (gC + 1)]
        omega

/-- Host count of the users loop output. -/
theorem userLoop_count_host (env : UserEnv) (nA nH : ℕ) :
    ∀ (ids : List ℕ) (aC hC gC : ℕ),
      ((userLoop env nA nH ids aC hC gC).1.map (fun u => u.userType)).count "host" =
        min (nH - hC) (ids.length - min (nA - aC) ids.length)
  | [], _, _, _ => by simp [userLoop]
  | uid :: rest, aC, hC, gC => by
    by_cases h1 : aC < nA
    · simp [userLoop, h1, mkUserRow, userLoop_count_host env nA nH rest (aC + 1) hC gC]
      omega
    · by_cases h2 : hC < nH
      · simp [userLoop, h1, h2, mkUserRow, userLoop_count_host env nA nH rest aC (hC + 1) gC]
        omega
      · simp [userLoop, h1, h2, mkUserRow, userLoop_count_host env nA nH rest aC hC (gC + 1)]
        omega

/-- Guest count of the users loop output. -/
theorem userLoop_count_guest (env : UserEnv) (nA nH : ℕ) :
    ∀ (ids : List ℕ) (aC hC gC : ℕ),
      ((userLoop env nA nH ids aC hC gC).1.map (fun u => u.userType)).count "guest" =
        ids.length - min (nA - aC) ids.length -
          min (nH - hC) (ids.length - min (nA - aC) ids.length)
  | [], _, _, _ => by simp [userLoop]
  | uid :: rest, aC, hC, gC => by
    by_cases h1 : aC < nA
    · simp [userLoop, h1, mkUserRow, userLoop_count_guest env nA nH rest (aC + 1) hC gC]
      omega
    · by_cases h2 : hC < nH
      · simp [userLoop, h1, h2, mkUserRow, userLoop_count_guest env nA nH rest aC (hC + 1) gC]
        omega
      · simp [userLoop, h1, h2, mkUserRow, userLoop_count_guest env nA nH rest aC hC (gC + 1)]
        omega

/-- The users loop assigns roles in blocks: some admins, then some
hosts, then some guests, in that order. -/
theorem userLoop_shape (env : UserEnv) (nA nH : ℕ) :
    ∀ (ids : List ℕ) (aC hC gC : ℕ),
      ∃ a h g, (userLoop env nA nH ids aC hC gC).1.map (fun u => u.userType) =
        List.replicate a "admin" ++ List.replicate h "host" ++ List.replicate g "guest"
  | [], _, _, _ => ⟨0, 0, 0, by simp [userLoop]⟩
  | uid :: rest, aC, hC, gC => by
    by_cases h1 : aC < nA
    · obtain ⟨a, h, g, IH⟩ := userLoop_shape env nA nH rest (aC + 1) hC gC
      exact ⟨a + 1, h, g, by
        simp [userLoop, h1, mkUserRow, IH, List.replicate_succ]⟩
    · by_cases h2 : hC < nH
      · obtain ⟨a, h, g, IH⟩ := userLoop_shape env nA nH rest aC (hC + 1) gC
        have hca := userLoop_count_admin env nA nH rest aC (hC + 1) gC
        rw [IH] at hca
        simp [List.count_append, List.count_replicate] at hca
        have ha0 : a = 0 := by omega
        subst ha0
        exact ⟨0, h + 1, g, by
          simp [userLoop, h1, h2, mkUserRow, IH, List.replicate_succ]⟩
      · obtain ⟨a, h, g, IH⟩ := userLoop_shape env nA nH rest aC hC (gC + 1)
        have hca := userLoop_count_admin env nA nH rest aC hC (gC + 1)
        have hch := userLoop_count_host env nA nH rest aC hC (gC + 1)
        rw [IH] at hca hch
        simp [List.count_append, List.count_replicate] at hca hch
        have ha0 : a = 0 := by omega
        have hh0 : h = 0 := by omega
        subst ha0; subst hh0
        exact ⟨0, 0, g + 1, by
          simp [userLoop, h1, h2, mkUserRow, IH, List.replicate_succ]⟩

/-- The two source asserts of populate_user_table always hold, so the
success branch is always returned. -/
theorem populate_user_table_eq (env : UserEnv) (num_users min_admins : ℕ) :
    populate_user_table env num_users min_admins =
      (userLoop env min_admins (max 5 (max num_users (min_admins * 20) / 4))
        (List.range' 1 (max num_users (min_admins * 20))) 0 0 0).1 := by
  unfold populate_user_table
  have htot : max (max num_users (min_admins * 20)) num_users =
      max num_users (min_admins * 20) := by omega
  simp only [htot]
  rw [if_pos]
  rw [userLoop_counters]
  refine ⟨?_, ?_⟩ <;> simp [List.length_range'] <;> omega

/-- The role sequence of the generated users table in closed form:
`min_admins` admins, then the host block, then guests. -/
theorem populate_user_table_types (env : UserEnv) (num_users min_admins : ℕ) :
    (populate_user_table env num_users min_admins).map (fun u => u.userType) =
      List.replicate min_admins "admin" ++
      List.replicate (min (max 5 (max num_users (min_admins * 20) / 4))
        (max num_users (min_admins * 20) - min_admins)) "host" ++
      List.replicate (max num_users (min_admins * 20) - min_admins -
        min (max 5 (max num_users (min_admins * 20) / 4))
          (max num_users (min_admins * 20) - min_admins)) "guest" := by
  rw [populate_user_table_eq]
  obtain ⟨a, h, g, hshape⟩ := userLoop_shape env min_admins
    (max 5 (max num_users (min_admins * 20) / 4))
    (List.range' 1 (max num_users (min_admins * 20))) 0 0 0
  have hca := userLoop_count_admin env min_admins
    (max 5 (max num_users (min_admins * 20) / 4))
    (List.range' 1 (max num_users (min_admins * 20))) 0 0 0
  have hch := userLoop_count_host env min_admins
    (max 5 (max num_users (min_admins * 20) / 4))
    (List.range' 1 (max num_users (min_admins * 20))) 0 0 0
  have hcg := userLoop_count_guest env min_admins
    (max 5 (max num_users (min_admins * 20) / 4))
    (List.range' 1 (max num_users (min_admins * 20))) 0 0 0
  rw [hshape] at hca hch hcg
  simp [List.count_append, List.count_replicate, List.length_range'] at hca hch hcg
  rw [hshape]
  have ea : a = min_admins := by omega
  have eh : h = min (max 5 (max num_users (min_admins * 20) / 4))
      (max num_users (min_admins * 20) - min_admins) := by omega
  have eg : g = max num_users (min_admins * 20) - min_admins -
      min (max 5 (max num_users (min_admins * 20) / 4))
        (max num_users (min_admins * 20) - min_admins) := by omega
  rw [ea, eh, eg]

/-- C4 (amended): populate_user_table assigns exactly `min_admins`
admins (not at least `max(5%, min_admins)`), at least `⌊25%⌋` of the
rows are hosts, all remaining rows are guests, and roles are assigned
by filling the admin quota first, then the host quota, then guest. -/
theorem C4_user_roles_amended (env : UserEnv) (num_users min_admins : ℕ) :
    (populate_user_table env num_users min_admins).map (fun u => u.userType) =
      List.replicate min_admins "admin" ++
      List.replicate (min (max 5 (max num_users (min_admins * 20) / 4))
        (max num_users (min_admins * 20) - min_admins)) "host" ++
      List.replicate (max num_users (min_admins * 20) - min_admins -
        min (max 5 (max num_users (min_admins * 20) / 4))
          (max num_users (min_admins * 20) - min_admins)) "guest" ∧
    max num_users (min_admins * 20) / 4 ≤
      min (max 5 (max num_users (min_admins * 20) / 4))
        (max num_users (min_admins * 20) - min_admins) := by
  exact ⟨populate_user_table_types env num_users min_admins, by omega⟩

/-- Counterexample to C4 as stated: with `num_users = 100` and
`min_admins = 2` the table has 100 rows but only 2 admins, strictly
fewer than `max(5% of 100, 2) = 5`. -/
theorem C4_user_roles_counterexample :
    ((populate_user_table userEnv0 100 2).map (fun u => u.userType)).count "admin" = 2 ∧
    2 < max (100 * 5 / 100) 2 := by
  constructor
  · rw [populate_user_table_types userEnv0 100 2]
    simp [List.count_append, List.count_replicate]
  · norm_num

/-! ## populate_availability_table lemmas -/

/-- Marking the range `[ci, ci+n)` acts pointwise on the dictionary. -/
theorem markRange_eq (ci : ℤ) (n : ℕ) (m : List (ℤ × Bool)) :
    (List.range n).foldl (fun m2 (i : ℕ) => markDay (ci + (i : ℤ)) m2) m =
      m.map (fun p => if ci ≤ p.1 ∧ p.1 < ci + (n : ℤ) then (p.1, false) else p) := by
  induction n with
  | zero =>
    simp only [List.range_zero, List.foldl_nil]
    symm
    refine (List.map_congr_left ?_).trans (List.map_id m)
    intro p _
    rw [if_neg (by omega)]
    rfl
  | succ n ih =>
    rw [List.range_succ, List.foldl_append, ih]
    simp only [List.foldl_cons, List.foldl_nil]
    unfold markDay
    rw [List.map_map]
    apply List.map_congr_left
    intro p _
    dsimp only [Function.comp]
    by_cases h1 : ci ≤ p.1 ∧ p.1 < ci + (n : ℤ)
    · rw [if_pos h1, if_pos (by push_cast; omega : ci ≤ p.1 ∧ p.1 < ci + ((n + 1 : ℕ) : ℤ))]
      split <;> rfl
    · rw [if_neg h1]
      by_cases h2 : p.1 = ci + (n : ℤ)
      · rw [if_pos h2, if_pos (by push_cast; omega : ci ≤ p.1 ∧ p.1 < ci + ((n + 1 : ℕ) : ℤ))]
      · rw [if_neg h2, if_neg (by push_cast; omega)]

/-- `markBooking` acts pointwise: an entry turns false exactly on the
half-open interval `[check_in, check_out)`. -/
theorem markBooking_eq (ci co : ℤ) (m : List (ℤ × Bool)) :
    markBooking ci co m =
      m.map (fun p => if ci ≤ p.1 ∧ p.1 < co then (p.1, false) else p) := by
  unfold markBooking
  rw [markRange_eq]
  apply List.map_congr_left
  intro p _
  exact if_congr (by omega) rfl rfl

/-- Folding `markBooking` over a booking list acts pointwise: an entry
is false in the result iff some booking covers it (all initial values
being overwritten only to false). -/
theorem foldlMark_eq (bookings : List AvBooking) (m : List (ℤ × Bool)) :
    bookings.foldl (fun m2 b => markBooking b.checkInDate b.checkOutDate m2) m =
      m.map (fun p =>
        if bookings.any (fun b => b.checkInDate ≤ p.1 ∧ p.1 < b.checkOutDate)
        then (p.1, false) else p) := by
  induction bookings generalizing m with
  | nil => simp
  | cons b rest ih =>
    rw [List.foldl_cons, ih, markBooking_eq, List.map_map]
    apply List.map_congr_left
    intro p _
    dsimp only [Function.comp]
    simp only [List.any_cons]
    by_cases hb : b.checkInDate ≤ p.1 ∧ p.1 < b.checkOutDate
    · rw [if_pos hb]
      simp [decide_eq_true hb]
    · rw [if_neg hb]
      simp [decide_eq_false hb]

/-- `(l.filter p).any q` scans `l` with the conjunction. -/
theorem any_filter_eq {α : Type} (p q : α → Bool) (l : List α) :
    (l.filter p).any q = l.any (fun a => p a && q a) := by
  induction l with
  | nil => rfl
  | cons a l ih =>
    rw [List.filter_cons]
    by_cases h : p a = true
    · simp [h, ih]
    · simp only [Bool.not_eq_true] at h
      simp [h, ih]

/-- The per-accommodation dictionary, in closed form: one entry per
window day, false iff a confirmed booking of that accommodation covers
the day. -/
theorem availabilityDatesFor_eq (aid : ℕ) (bookings : List AvBooking) :
    availabilityDatesFor aid bookings =
      (List.range 30).map (fun (i : ℕ) => ((i : ℤ),
        !(bookings.any (fun b => b.accommodationId = aid ∧
          b.bookingStatus = "confirmed" ∧
          b.checkInDate ≤ (i : ℤ) ∧ (i : ℤ) < b.checkOutDate)))) := by
  unfold availabilityDatesFor availInit
  rw [foldlMark_eq, List.map_map]
  apply List.map_congr_left
  intro i _
  dsimp only [Function.comp]
  rw [any_filter_eq]
  have hpred : ∀ b : AvBooking,
      (decide (b.accommodationId = aid ∧ b.bookingStatus = "confirmed") &&
        decide (b.checkInDate ≤ (i : ℤ) ∧ (i : ℤ) < b.checkOutDate)) =
      decide (b.accommodationId = aid ∧ b.bookingStatus = "confirmed" ∧
        b.checkInDate ≤ (i : ℤ) ∧ (i : ℤ) < b.checkOutDate) := by
    intro b
    simp [Bool.and_assoc, and_assoc]
  simp only [hpred]
  cases h : bookings.any (fun b => decide (b.accommodationId = aid ∧
      b.bookingStatus = "confirmed" ∧
      b.checkInDate ≤ (i : ℤ) ∧ (i : ℤ) < b.checkOutDate)) <;> simp [h]

/-- Counting over a flattened list of blocks. -/
theorem count_flatMap_eq {α β : Type} [BEq β] (l : List α)
    (f : α → List β) (x : β) :
    (l.flatMap f).count x = (l.map (fun a => (f a).count x)).sum := by
  induction l with
  | nil => rfl
  | cons a l ih => simp [List.flatMap_cons, List.count_append, ih]

/-- Mapping over a flattened list of blocks. -/
theorem map_flatMap_eq {α β γ : Type} (l : List α) (f : α → List β) (g : β → γ) :
    (l.flatMap f).map g = l.flatMap (fun a => (f a).map g) := by
  induction l with
  | nil => rfl
  | cons a l ih => simp [List.flatMap_cons, ih]

/-- Pair-counting in one accommodation block of the window. -/
theorem count_range_pair (a aid : ℕ) (d : ℤ) (n : ℕ) :
    ((List.range n).map (fun (i : ℕ) => (a, (i : ℤ)))).count (aid, d) =
      if aid = a ∧ 0 ≤ d ∧ d < (n : ℤ) then 1 else 0 := by
  induction n with
  | zero =>
    rw [if_neg (by omega)]
    simp
  | succ n ih =>
    rw [List.range_succ, List.map_append, List.count_append, ih]
    simp only [List.map_cons, List.map_nil]
    have hsing : ([(a, (n : ℤ))] : List (ℕ × ℤ)).count (aid, d) =
        if aid = a ∧ d = (n : ℤ) then 1 else 0 := by
      simp only [List.count_cons, List.count_nil, beq_iff_eq, Prod.mk.injEq]
      split_ifs <;> omega
    rw [hsing]
    split_ifs <;> omega

/-- Summing the indicator over a duplicate-free parent list. -/
theorem sum_indicator_nodup (accs : List ℕ) (aid : ℕ) (P : Prop) [Decidable P]
    (hnd : accs.Nodup) :
    (accs.map (fun a => if aid = a ∧ P then 1 else 0)).sum =
      if aid ∈ accs ∧ P then 1 else 0 := by
  induction accs with
  | nil => simp
  | cons a rest ih =>
    rw [List.nodup_cons] at hnd
    rw [List.map_cons, List.sum_cons, ih hnd.2]
    by_cases hP : P
    · by_cases haid : aid = a
      · rw [if_pos ⟨haid, hP⟩, if_neg (by subst haid; exact fun hc => hnd.1 hc.1),
          if_pos ⟨by simp [haid], hP⟩]
      · rw [if_neg (fun hc => haid hc.1)]
        by_cases hmem : aid ∈ rest
        · rw [if_pos ⟨hmem, hP⟩, if_pos ⟨by simp [hmem], hP⟩]
        · rw [if_neg (fun hc => hmem hc.1), if_neg (by simp [haid, hmem])]
    · simp [hP]

/-- C3: the availability table has exactly one row per (accommodation,
calendar day) pair of the June 2024 window (days 0–29 counted from
2024-06-01) and no other rows, and a row is unavailable iff its day
lies in the half-open interval [CheckInDate, CheckOutDate) of some
confirmed booking of that accommodation — so the checkout day itself
stays available. -/
theorem C3_availability_window (accs : List ℕ) (bookings : List AvBooking)
    (hnd : accs.Nodup) (hacc : accs ≠ []) (hbk : bookings ≠ []) :
    (∀ (aid : ℕ) (d : ℤ),
      (((populate_availability_table accs bookings).rows.map
          (fun r => (r.accommodationId, r.date))).count (aid, d)) =
        if aid ∈ accs ∧ 0 ≤ d ∧ d ≤ 29 then 1 else 0) ∧
    (∀ r ∈ (populate_availability_table accs bookings).rows,
      (r.isAvailable = false ↔ ∃ b ∈ bookings,
        b.accommodationId = r.accommodationId ∧ b.bookingStatus = "confirmed" ∧
        b.checkInDate ≤ r.date ∧ r.date < b.checkOutDate)) := by
  have hrows : (populate_availability_table accs bookings).rows =
      accs.flatMap (fun aid => availRowsFor aid bookings) := by
    unfold populate_availability_table
    rw [if_neg (by simp [hacc, hbk])]
    rfl
  constructor
  · intro aid d
    rw [hrows, map_flatMap_eq, count_flatMap_eq]
    have hblock : ∀ a : ℕ,
        (availRowsFor a bookings).map (fun r => (r.accommodationId, r.date)) =
          (List.range 30).map (fun (i : ℕ) => (a, (i : ℤ))) := by
      intro a
      unfold availRowsFor
      rw [availabilityDatesFor_eq, List.map_map, List.map_map]
      rfl
    have hcnt : ∀ a : ℕ,
        ((availRowsFor a bookings).map (fun r => (r.accommodationId, r.date))).count
            (aid, d) = if aid = a ∧ 0 ≤ d ∧ d ≤ 29 then 1 else 0 := by
      intro a
      rw [hblock, count_range_pair]
      exact if_congr (by omega) rfl rfl
    simp only [hcnt]
    rw [sum_indicator_nodup accs aid (0 ≤ d ∧ d ≤ 29) hnd]
  · intro r hr
    rw [hrows] at hr
    rcases List.mem_flatMap.1 hr with ⟨a, _, hra⟩
    unfold availRowsFor at hra
    rw [availabilityDatesFor_eq, List.map_map] at hra
    rcases List.mem_map.1 hra with ⟨i, _, hri⟩
    subst hri
    simp only [Function.comp]
    constructor
    · intro hfalse
      cases hany : bookings.any (fun b => decide (b.accommodationId = a ∧
          b.bookingStatus = "confirmed" ∧
          b.checkInDate ≤ (i : ℤ) ∧ (i : ℤ) < b.checkOutDate)) with
      | false => rw [hany] at hfalse; simp at hfalse
      | true =>
        rcases List.any_eq_true.1 hany with ⟨b, hbm, hbp⟩
        simp only [decide_eq_true_eq] at hbp
        exact ⟨b, hbm, hbp.1, hbp.2.1, hbp.2.2⟩
    · intro ⟨b, hbm, h1, h2, h3, h4⟩
      have hprop : b.accommodationId = a ∧ b.bookingStatus = "confirmed" ∧
          b.checkInDate ≤ (i : ℤ) ∧ (i : ℤ) < b.checkOutDate := ⟨h1, h2, h3, h4⟩
      have hany : (bookings.any fun x => decide (x.accommodationId = a ∧
          x.bookingStatus = "confirmed" ∧
          x.checkInDate ≤ (i : ℤ) ∧ (i : ℤ) < x.checkOutDate)) = true :=
        List.any_eq_true.2 ⟨b, hbm, decide_eq_true hprop⟩
      rw [hany]
      rfl

/-- Witness for C3 at a concrete instance: one accommodation, one
confirmed booking occupying days 2–4 (checkout on day 5). -/
theorem C3_availability_window_witness :
    (∀ (aid : ℕ) (d : ℤ),
      (((populate_availability_table [1] [⟨1, "confirmed", 2, 5⟩]).rows.map
          (fun r => (r.accommodationId, r.date))).count (aid, d)) =
        if aid ∈ [1] ∧ 0 ≤ d ∧ d ≤ 29 then 1 else 0) ∧
    (∀ r ∈ (populate_availability_table [1] [⟨1, "confirmed", 2, 5⟩]).rows,
      (r.isAvailable = false ↔ ∃ b ∈ [(⟨1, "confirmed", 2, 5⟩ : AvBooking)],
        b.accommodationId = r.accommodationId ∧ b.bookingStatus = "confirmed" ∧
        b.checkInDate ≤ r.date ∧ r.date < b.checkOutDate)) :=
  C3_availability_window [1] [⟨1, "confirmed", 2, 5⟩]
    (by decide) (by decide) (by decide)

/-- C6 (amended): populate_availability_table detects an empty parent
table explicitly and returns the empty table with its full column set;
populate_cancellation_table only reaches its recovery path (and the
three-column empty table) when a required column is missing, while an
empty-but-well-formed bookings table flows through the success path
and yields an empty table whose column set is empty, because pandas
derives columns from the (absent) records. -/
theorem C6_empty_input_amended :
    (∀ (accs : List ℕ) (bookings : List AvBooking), accs = [] ∨ bookings = [] →
      populate_availability_table accs bookings = ⟨availabilityCols, []⟩) ∧
    (∀ (env : CanEnv) (df : BookingsDF) (minc : ℕ), df.hasRequiredCols = false →
      populate_cancellation_table env df minc = ⟨cancellationCols, []⟩) ∧
    (∀ (env : CanEnv) (df : BookingsDF) (minc : ℕ), df.hasRequiredCols = true →
      df.rows = [] →
      populate_cancellation_table env df minc = (⟨[], []⟩ : DF CancellationRow)) := by
  refine ⟨?_, ?_, ?_⟩
  · intro accs bookings h
    unfold populate_availability_table
    rw [if_pos h]
  · intro env df minc h
    unfold populate_cancellation_table
    rw [if_pos h]
  · intro env df minc hcols hrows
    obtain ⟨hc, rows⟩ := df
    simp only at hcols hrows
    subst hcols
    subst hrows
    unfold populate_cancellation_table
    simp only [List.filter_nil, List.length_nil]
    by_cases hm : (0 : ℕ) < minc
    · rw [if_neg (by simp)]
      simp [hm, pySample, dfFromRecords, buildCancellations]
    · rw [if_neg (by simp)]
      simp [hm, pySample, dfFromRecords, buildCancellations]

/-- Witness for C6 (amended) at concrete inputs. -/
theorem C6_empty_input_amended_witness :
    populate_availability_table [] [] = ⟨availabilityCols, []⟩ ∧
    populate_cancellation_table canEnv0 ⟨false, []⟩ 20 = ⟨cancellationCols, []⟩ ∧
    populate_cancellation_table canEnv0 ⟨true, []⟩ 20 = (⟨[], []⟩ : DF CancellationRow) :=
  ⟨C6_empty_input_amended.1 [] [] (Or.inl rfl),
   C6_empty_input_amended.2.1 canEnv0 ⟨false, []⟩ 20 rfl,
   C6_empty_input_amended.2.2 canEnv0 ⟨true, []⟩ 20 rfl rfl⟩

/-- Counterexample to C6 as stated: an empty bookings table that still
has its columns makes populate_cancellation_table return an empty
table with an empty column set, not the three-column schema. -/
theorem C6_cancellation_counterexample :
    populate_cancellation_table canEnv0 ⟨true, []⟩ 20 = (⟨[], []⟩ : DF CancellationRow) ∧
    (populate_cancellation_table canEnv0 ⟨true, []⟩ 20).cols ≠ cancellationCols := by
  constructor
  · unfold populate_cancellation_table
    simp [pySample, dfFromRecords, buildCancellations]
  · unfold populate_cancellation_table
    simp [pySample, dfFromRecords, buildCancellations, cancellationCols]

/-! ## Link-table lemmas -/

theorem setAdd_nodup {p : ℕ × ℕ} {s : List (ℕ × ℕ)} (h : s.Nodup) :
    (setAdd p s).Nodup := by
  unfold setAdd
  split
  · exact h
  · exact List.nodup_cons.2 ⟨by assumption, h⟩

theorem setAdd_subset {p : ℕ × ℕ} {s : List (ℕ × ℕ)} : s ⊆ setAdd p s := by
  unfold setAdd
  split
  · exact fun x hx => hx
  · exact List.subset_cons_self p s

theorem mem_setAdd_self {p : ℕ × ℕ} {s : List (ℕ × ℕ)} : p ∈ setAdd p s := by
  unfold setAdd
  split
  · assumption
  · exact List.mem_cons_self p s

theorem hrPhase1_nodup (env : LinkEnv) (rules : List ℕ) :
    ∀ (lst : List ℕ) (i : ℕ) (t : ℤ) (s : List (ℕ × ℕ)), s.Nodup →
      ((hrPhase1 env rules lst i t s).1).Nodup
  | [], _, _, _, h => h
  | aid :: rest, i, t, s, h => by
    unfold hrPhase1
    dsimp only
    split
    · exact setAdd_nodup h
    · exact hrPhase1_nodup env rules rest (i + 1) (t - 1) _ (setAdd_nodup h)

theorem hrPhase1_subset (env : LinkEnv) (rules : List ℕ) :
    ∀ (lst : List ℕ) (i : ℕ) (t : ℤ) (s : List (ℕ × ℕ)),
      s ⊆ (hrPhase1 env rules lst i t s).1
  | [], _, _, _ => fun x hx => hx
  | aid :: rest, i, t, s => by
    unfold hrPhase1
    dsimp only
    split
    · exact setAdd_subset
    · exact fun x hx =>
        hrPhase1_subset env rules rest (i + 1) (t - 1) _ (setAdd_subset hx)

theorem hrPhase1_covers (env : LinkEnv) (rules : List ℕ) :
    ∀ (lst : List ℕ) (i : ℕ) (t : ℤ) (s : List (ℕ × ℕ)),
      (lst.length : ℤ) ≤ t →
      ∀ a ∈ lst, ∃ p ∈ (hrPhase1 env rules lst i t s).1, p.1 = a
  | [], _, _, _, _, a, ha => absurd ha (List.not_mem_nil a)
  | aid :: rest, i, t, s, ht, a, ha => by
    unfold hrPhase1
    dsimp only
    have hlen : ((rest.length + 1 : ℕ) : ℤ) ≤ t := by
      simpa using ht
    split
    · rename_i hstop
      have hrest : rest.length = 0 := by omega
      rcases List.mem_cons.1 ha with h | h
      · exact ⟨(aid, rules.getD (env.pick1 i % rules.length) 0),
          mem_setAdd_self, h.symm⟩
      · rw [List.length_eq_zero] at hrest
        rw [hrest] at h
        exact absurd h (List.not_mem_nil a)
    · rcases List.mem_cons.1 ha with h | h
      · subst h
        exact ⟨(a, rules.getD (env.pick1 i % rules.length) 0),
          hrPhase1_subset env rules rest (i + 1) (t - 1) _ mem_setAdd_self, rfl⟩
      · exact hrPhase1_covers env rules rest (i + 1) (t - 1) _ (by omega) a h

theorem hrPhase2_nodup (env : LinkEnv) (accs rules : List ℕ) :
    ∀ (fuel iter : ℕ) (t : ℤ) (s out : List (ℕ × ℕ)), s.Nodup →
      hrPhase2 env accs rules fuel iter t s = some out → out.Nodup
  | 0, iter, t, s, out, h, heq => by
    unfold hrPhase2 at heq
    split at heq
    · cases heq
      exact h
    · cases heq
  | fuel + 1, iter, t, s, out, h, heq => by
    unfold hrPhase2 at heq
    split at heq
    · cases heq
      exact h
    · dsimp only at heq
      split at heq
      · exact hrPhase2_nodup env accs rules fuel (iter + 1) t s out h heq
      · exact hrPhase2_nodup env accs rules fuel (iter + 1) (t - 1) _ out
          (setAdd_nodup h) heq

theorem hrPhase2_superset (env : LinkEnv) (accs rules : List ℕ) :
    ∀ (fuel iter : ℕ) (t : ℤ) (s out : List (ℕ × ℕ)),
      hrPhase2 env accs rules fuel iter t s = some out → s ⊆ out
  | 0, iter, t, s, out, heq => by
    unfold hrPhase2 at heq
    split at heq
    · cases heq
      exact fun x hx => hx
    · cases heq
  | fuel + 1, iter, t, s, out, heq => by
    unfold hrPhase2 at heq
    split at heq
    · cases heq
      exact fun x hx => hx
    · dsimp only at heq
      split at heq
      · exact hrPhase2_superset env accs rules fuel (iter + 1) t s out heq
      · exact fun x hx =>
          hrPhase2_superset env accs rules fuel (iter + 1) (t - 1) _ out heq
            (setAdd_subset hx)

/-- The (AccommodationID, AmenityID) projection of the amenity rows. -/
def amKeys (rows : List AmenRow) : List (ℕ × ℕ) :=
  rows.map (fun e => (e.accommodationId, e.amenityId))

theorem amPhase1_nodup (env : LinkEnv) (amens : List ℕ) :
    ∀ (lst : List ℕ) (i nid : ℕ) (t : ℤ) (rows : List AmenRow),
      lst.Nodup → (∀ e ∈ rows, e.accommodationId ∉ lst) →
      (amKeys rows).Nodup →
      (amKeys (amPhase1 env amens lst i nid t rows).1).Nodup
  | [], _, _, _, _, _, _, hk => hk
  | aid :: rest, i, nid, t, rows, hl, hdisj, hk => by
    have hk2 : (amKeys (rows ++ [⟨nid, aid, amens.getD (env.pick1 i % amens.length) 0⟩])).Nodup := by
      unfold amKeys
      rw [List.map_append]
      rw [List.nodup_append]
      refine ⟨hk, List.nodup_singleton _, ?_⟩
      intro x hx hx2
      rcases List.mem_map.1 hx with ⟨e, he, hxe⟩
      simp only [List.map_cons, List.map_nil, List.mem_singleton] at hx2
      rw [hx2] at hxe
      have : e.accommodationId = aid := (Prod.ext_iff.1 hxe).1
      exact hdisj e he (this ▸ List.mem_cons_self aid rest)
    unfold amPhase1
    dsimp only
    split
    · exact hk2
    · refine amPhase1_nodup env amens rest (i + 1) (nid + 1) (t - 1) _
        (List.nodup_cons.1 hl).2 ?_ hk2
      intro e he
      rcases List.mem_append.1 he with h | h
      · exact fun hmem => hdisj e h (List.mem_cons_of_mem aid hmem)
      · simp only [List.mem_singleton] at h
        rw [h]
        exact (List.nodup_cons.1 hl).1

theorem amPhase1_subset (env : LinkEnv) (amens : List ℕ) :
    ∀ (lst : List ℕ) (i nid : ℕ) (t : ℤ) (rows : List AmenRow),
      rows ⊆ (amPhase1 env amens lst i nid t rows).1
  | [], _, _, _, _ => fun x hx => hx
  | aid :: rest, i, nid, t, rows => by
    unfold amPhase1
    dsimp only
    split
    · exact fun x hx => List.mem_append_left _ hx
    · exact fun x hx =>
        amPhase1_subset env amens rest (i + 1) (nid + 1) (t - 1) _
          (List.mem_append_left _ hx)

theorem amPhase1_covers (env : LinkEnv) (amens : List ℕ) :
    ∀ (lst : List ℕ) (i nid : ℕ) (t : ℤ) (rows : List AmenRow),
      (lst.length : ℤ) ≤ t →
      ∀ a ∈ lst, ∃ e ∈ (amPhase1 env amens lst i nid t rows).1,
        e.accommodationId = a
  | [], _, _, _, _, _, a, ha => absurd ha (List.not_mem_nil a)
  | aid :: rest, i, nid, t, rows, ht, a, ha => by
    unfold amPhase1
    dsimp only
    have hlen : ((rest.length + 1 : ℕ) : ℤ) ≤ t := by simpa using ht
    have hself : (⟨nid, aid, amens.getD (env.pick1 i % amens.length) 0⟩ : AmenRow) ∈
        rows ++ [⟨nid, aid, amens.getD (env.pick1 i % amens.length) 0⟩] :=
      List.mem_append_right _ (List.mem_singleton.2 rfl)
    split
    · rename_i hstop
      have hrest : rest.length = 0 := by omega
      rcases List.mem_cons.1 ha with h | h
      · exact ⟨_, hself, h.symm⟩
      · rw [List.length_eq_zero] at hrest
        rw [hrest] at h
        exact absurd h (List.not_mem_nil a)
    · rcases List.mem_cons.1 ha with h | h
      · subst h
        exact ⟨_, amPhase1_subset env amens rest (i + 1) (nid + 1) (t - 1) _ hself, rfl⟩
      · exact amPhase1_covers env amens rest (i + 1) (nid + 1) (t - 1) _ (by omega) a h

theorem amPhase2_nodup (env : LinkEnv) (accs amens : List ℕ) :
    ∀ (fuel iter nid : ℕ) (t : ℤ) (rows out : List AmenRow),
      (amKeys rows).Nodup → amPhase2 env accs amens fuel iter nid t rows = some out →
      (amKeys out).Nodup
  | 0, iter, nid, t, rows, out, h, heq => by
    unfold amPhase2 at heq
    split at heq
    · cases heq
      exact h
    · cases heq
  | fuel + 1, iter, nid, t, rows, out, h, heq => by
    unfold amPhase2 at heq
    split at heq
    · cases heq
      exact h
    · dsimp only at heq
      split at heq
      · exact amPhase2_nodup env accs amens fuel (iter + 1) nid t rows out h heq
      · rename_i hany
        refine amPhase2_nodup env accs amens fuel (iter + 1) (nid + 1) (t - 1) _ out ?_ heq
        unfold amKeys
        rw [List.map_append, List.nodup_append]
        refine ⟨h, List.nodup_singleton _, ?_⟩
        intro x hx hx2
        rcases List.mem_map.1 hx with ⟨e, he, hxe⟩
        simp only [List.map_cons, List.map_nil, List.mem_singleton] at hx2
        rw [hx2] at hxe
        have hek : e.accommodationId = accs.getD (env.pick2p iter % accs.length) 0 ∧
            e.amenityId = amens.getD (env.pick2c iter % amens.length) 0 := by
          have h2 := Prod.ext_iff.1 hxe
          exact ⟨h2.1, h2.2⟩
        exact hany (List.any_eq_true.2 ⟨e, he, decide_eq_true hek⟩)

theorem amPhase2_superset (env : LinkEnv) (accs amens : List ℕ) :
    ∀ (fuel iter nid : ℕ) (t : ℤ) (rows out : List AmenRow),
      amPhase2 env accs amens fuel iter nid t rows = some out → rows ⊆ out
  | 0, iter, nid, t, rows, out, heq => by
    unfold amPhase2 at heq
    split at heq
    · cases heq
      exact fun x hx => hx
    · cases heq
  | fuel + 1, iter, nid, t, rows, out, heq => by
    unfold amPhase2 at heq
    split at heq
    · cases heq
      exact fun x hx => hx
    · dsimp only at heq
      split at heq
      · exact amPhase2_superset env accs amens fuel (iter + 1) nid t rows out heq
      · exact fun x hx =>
          amPhase2_superset env accs amens fuel (iter + 1) (nid + 1) (t - 1) _ out heq
            (List.mem_append_left _ hx)

/-- C1: whenever the link generators return (the retry loop can fail
to terminate, see C2), the house-rule table has no duplicate
(AccommodationID, HouseRuleID) pair and the amenity table no duplicate
(AccommodationID, AmenityID) pair, and when the requested
total_entries is at least the number of accommodations every
accommodation id appears in at least one output row. -/
theorem C1_link_no_dup_and_coverage :
    (∀ (env : LinkEnv) (accs rules : List ℕ) (total : ℤ) (fuel : ℕ)
      (out : List (ℕ × ℕ)),
      accs ≠ [] → rules ≠ [] →
      populate_accommodation_house_rule_table env accs rules total fuel = some out →
      out.Nodup ∧ ((accs.length : ℤ) ≤ total → ∀ a ∈ accs, ∃ p ∈ out, p.1 = a)) ∧
    (∀ (env : LinkEnv) (accs amens : List ℕ) (total : ℤ) (fuel : ℕ)
      (out : List AmenRow),
      accs ≠ [] → amens ≠ [] → accs.Nodup →
      populate_accommodation_amenity_table env accs amens total fuel = some out →
      (amKeys out).Nodup ∧
      ((accs.length : ℤ) ≤ total → ∀ a ∈ accs, ∃ e ∈ out, e.accommodationId = a)) := by
  constructor
  · intro env accs rules total fuel out hacc hrules heq
    unfold populate_accommodation_house_rule_table at heq
    rw [if_neg (by simp [hacc, hrules])] at heq
    dsimp only at heq
    constructor
    · exact hrPhase2_nodup env accs rules fuel 0 _ _ _
        (hrPhase1_nodup env rules accs 0 total [] List.nodup_nil) heq
    · intro htot a ha
      obtain ⟨p, hp, hpa⟩ := hrPhase1_covers env rules accs 0 total [] htot a ha
      exact ⟨p, hrPhase2_superset env accs rules fuel 0 _ _ _ heq hp, hpa⟩
  · intro env accs amens total fuel out hacc hamens hnd heq
    unfold populate_accommodation_amenity_table at heq
    rw [if_neg (by simp [hacc, hamens])] at heq
    dsimp only at heq
    constructor
    · exact amPhase2_nodup env accs amens fuel 0 _ _ _ _
        (amPhase1_nodup env amens accs 0 1 total [] hnd (by simp) List.nodup_nil) heq
    · intro htot a ha
      obtain ⟨e, he, hea⟩ := amPhase1_covers env amens accs 0 1 total [] htot a ha
      exact ⟨e, amPhase2_superset env accs amens fuel 0 _ _ _ _ heq he, hea⟩

/-- Witness for C1: two accommodations, one child id, quota 2 — both
generators terminate (phase 2 has nothing to do) and the conclusions
hold at this instance. -/
theorem C1_link_no_dup_and_coverage_witness :
    ((([(2, 1), (1, 1)] : List (ℕ × ℕ)).Nodup ∧
      ((([1, 2] : List ℕ).length : ℤ) ≤ 2 →
        ∀ a ∈ [1, 2], ∃ p ∈ [(2, 1), (1, 1)], Prod.fst p = a)) ∧
     ((amKeys [⟨1, 1, 1⟩, ⟨2, 2, 1⟩]).Nodup ∧
      ((([1, 2] : List ℕ).length : ℤ) ≤ 2 →
        ∀ a ∈ [1, 2], ∃ e ∈ [(⟨1, 1, 1⟩ : AmenRow), ⟨2, 2, 1⟩],
          e.accommodationId = a))) :=
  ⟨C1_link_no_dup_and_coverage.1 linkEnv0 [1, 2] [1] 2 0 [(2, 1), (1, 1)]
      (by decide) (by decide) (by decide),
   C1_link_no_dup_and_coverage.2 linkEnv0 [1, 2] [1] 2 0 [⟨1, 1, 1⟩, ⟨2, 2, 1⟩]
      (by decide) (by decide) (by decide) (by decide)⟩

/-- The house-rule phase-2 loop never terminates once every
(parent, child) pair is taken but quota remains: with one
accommodation, one rule and quota 1 left, every drawn pair is
rejected. -/
theorem hrPhase2_stuck (env : LinkEnv) :
    ∀ (fuel iter : ℕ), hrPhase2 env [1] [1] fuel iter 1 [(1, 1)] = none
  | 0, iter => by
    unfold hrPhase2
    rw [if_neg (by omega)]
  | fuel + 1, iter => by
    unfold hrPhase2
    rw [if_neg (by omega)]
    dsimp only
    rw [if_pos (by simp [Nat.mod_one])]
    exact hrPhase2_stuck env fuel (iter + 1)

/-- Same for the amenity phase-2 loop. -/
theorem amPhase2_stuck (env : LinkEnv) :
    ∀ (fuel iter : ℕ), amPhase2 env [1] [1] fuel iter 2 1 [⟨1, 1, 1⟩] = none
  | 0, iter => by
    unfold amPhase2
    rw [if_neg (by omega)]
  | fuel + 1, iter => by
    unfold amPhase2
    rw [if_neg (by omega)]
    dsimp only
    rw [if_pos (by simp [Nat.mod_one])]
    exact amPhase2_stuck env fuel (iter + 1)

/-- C2: the retry loops have no exhaustion check, so with one
accommodation, one child id and total_entries = 2 both generators loop
forever — no amount of fuel makes them return — where the claim
expects termination with the maximum distinct-pair count (1 pair). -/
theorem C2_link_loop_diverges :
    ∀ (env : LinkEnv) (fuel : ℕ),
      populate_accommodation_house_rule_table env [1] [1] 2 fuel = none ∧
      populate_accommodation_amenity_table env [1] [1] 2 fuel = none := by
  intro env fuel
  constructor
  · unfold populate_accommodation_house_rule_table
    rw [if_neg (by simp)]
    have h1 : hrPhase1 env [1] [1] 0 2 [] = ([(1, 1)], 1) := by
      simp [hrPhase1, Nat.mod_one, setAdd]
    dsimp only
    rw [h1]
    exact hrPhase2_stuck env fuel 0
  · unfold populate_accommodation_amenity_table
    rw [if_neg (by simp)]
    have h1 : amPhase1 env [1] [1] 0 1 2 [] = ([⟨1, 1, 1⟩], 2, 1) := by
      simp [amPhase1, Nat.mod_one]
    dsimp only
    rw [h1]
    exact amPhase2_stuck env fuel 0

/-! ## populate_photo_table lemmas -/

/-- If the remaining quota cannot run out before the last
accommodation (each earlier one consumes at most 10 photos), the
per-accommodation loop returns successfully, keeps all earlier rows,
and gives every listed accommodation at least one photo. -/
theorem photoPhase1_covers (env : PhotoEnv) :
    ∀ (lst : List ℕ) (i pid : ℕ) (t : ℤ) (rows : List PhotoRow),
      10 * ((lst.length : ℤ) - 1) + 1 ≤ t →
      ∃ rows2 pid2 t2, photoPhase1 env lst i pid t rows = some (rows2, pid2, t2) ∧
        (∀ r ∈ rows, r ∈ rows2) ∧
        (∀ a ∈ lst, ∃ r ∈ rows2, r.accommodationId = a)
  | [], i, pid, t, rows, ht =>
    ⟨rows, pid, t, rfl, fun r hr => hr, by simp⟩
  | aid :: rest, i, pid, t, rows, ht => by
    have hlen : ((aid :: rest).length : ℤ) = (rest.length : ℤ) + 1 := by
      simp
    have ht1 : (1 : ℤ) ≤ t := by
      have := Int.natCast_nonneg rest.length
      omega
    unfold photoPhase1
    rw [if_neg (by omega)]
    dsimp only
    have hmod : env.nPick i % (min 10 t).toNat < (min 10 t).toNat :=
      Nat.mod_lt _ (by omega)
    have hn1 : 1 ≤ 1 + env.nPick i % (min 10 t).toNat := by omega
    have hn10 : ((1 + env.nPick i % (min 10 t).toNat : ℕ) : ℤ) ≤ min 10 t := by
      omega
    have hmem : (⟨pid + 0, aid, env.url1 i 0⟩ : PhotoRow) ∈
        rows ++ (List.range (1 + env.nPick i % (min 10 t).toNat)).map
          (fun (j : ℕ) => (⟨pid + j, aid, env.url1 i j⟩ : PhotoRow)) :=
      List.mem_append_right _
        (List.mem_map.2 ⟨0, List.mem_range.2 (by omega), rfl⟩)
    by_cases hstop : t - (1 + env.nPick i % (min 10 t).toNat : ℕ) ≤ 0
    · rw [if_pos hstop]
      refine ⟨_, _, _, rfl, fun r hr => List.mem_append_left _ hr, ?_⟩
      intro a ha
      have hrest0 : rest.length = 0 := by omega
      rcases List.mem_cons.1 ha with h | h
      · exact ⟨_, hmem, h.symm⟩
      · rw [List.length_eq_zero] at hrest0
        rw [hrest0] at h
        exact absurd h (List.not_mem_nil a)
    · rw [if_neg hstop]
      obtain ⟨rows3, pid3, t3, heq, hsub, hcov⟩ :=
        photoPhase1_covers env rest (i + 1)
          (pid + (1 + env.nPick i % (min 10 t).toNat))
          (t - (1 + env.nPick i % (min 10 t).toNat : ℕ)) _ (by omega)
      refine ⟨rows3, pid3, t3, heq,
        fun r hr => hsub r (List.mem_append_left _ hr), ?_⟩
      intro a ha
      rcases List.mem_cons.1 ha with h | h
      · exact ⟨_, hsub _ hmem, h.symm⟩
      · exact hcov a h

/-- C5 (amended): every accommodation receives at least one photo
provided the quota cannot run out before it is processed — in
particular whenever `total_photos ≥ 10·(n−1)+1` for `n`
accommodations.  (As stated over every total_photos the claim fails:
the loop breaks as soon as the quota hits zero, leaving later
accommodations photoless — see the counterexample.) -/
theorem C5_photo_floor_amended (env : PhotoEnv) (accIds : List ℕ) (total : ℤ)
    (h : 10 * ((accIds.length : ℤ) - 1) + 1 ≤ total) :
    ∀ a ∈ accIds, ∃ r ∈ populate_photo_table env accIds total,
      r.accommodationId = a := by
  intro a ha
  have hne : accIds ≠ [] := by
    rintro rfl
    exact absurd ha (List.not_mem_nil a)
  unfold populate_photo_table
  rw [if_neg hne]
  obtain ⟨rows2, pid2, t2, heq, _, hcov⟩ :=
    photoPhase1_covers env accIds 0 1 total [] h
  rw [heq]
  obtain ⟨r, hr, hra⟩ := hcov a ha
  exact ⟨r, List.mem_append_left _ hr, hra⟩

/-- Witness for C5 (amended): two accommodations and quota 11 ≥ 10·1+1,
both covered. -/
theorem C5_photo_floor_amended_witness :
    (∃ r ∈ populate_photo_table photoEnv0 [1, 2] 11, r.accommodationId = 1) ∧
    (∃ r ∈ populate_photo_table photoEnv0 [1, 2] 11, r.accommodationId = 2) :=
  ⟨C5_photo_floor_amended photoEnv0 [1, 2] 11 (by norm_num) 1 (by decide),
   C5_photo_floor_amended photoEnv0 [1, 2] 11 (by norm_num) 2 (by decide)⟩

/-- Counterexample to C5 as stated: with two accommodations and
total_photos = 1 the quota is exhausted by the first accommodation
(deterministically, since randint(1, min(10, 1)) = 1) and the loop
breaks, so accommodation 2 receives no photo. -/
theorem C5_photo_floor_counterexample :
    (2 : ℕ) ∈ [1, 2] ∧
    (populate_photo_table photoEnv0 [1, 2] 1).map
      (fun r => r.accommodationId) = [1] := by
  constructor
  · decide
  · decide

/-! ## populate_host_response_table lemmas -/

theorem pySample_subset {α : Type} [Inhabited α] (pick : ℕ → ℕ) :
    ∀ (xs : List α) (k i : ℕ) (out : List α),
      pySample pick xs k i = some out → ∀ x ∈ out, x ∈ xs
  | xs, 0, i, out, heq => by
    unfold pySample at heq
    cases heq
    simp
  | xs, k + 1, i, out, heq => by
    unfold pySample at heq
    split at heq
    · cases heq
    · dsimp only at heq
      rcases Option.map_eq_some'.1 heq with ⟨r, hr, hxr⟩
      intro y hy
      rw [← hxr] at hy
      rcases List.mem_cons.1 hy with h | h
      · rename_i hlen
        have hidx : pick i % xs.length < xs.length :=
          Nat.mod_lt _ (Nat.pos_of_ne_zero hlen)
        rw [h, List.getD_eq_getElem xs default hidx]
        exact List.getElem_mem hidx
      · exact (List.eraseIdx_sublist xs (pick i % xs.length)).subset
          (pySample_subset pick _ k (i + 1) r hr y h)

/-- In a duplicate-free list, the element at a position does not occur
in the list with that position erased. -/
theorem getD_not_mem_eraseIdx {α : Type} [Inhabited α] :
    ∀ (xs : List α), xs.Nodup → ∀ i < xs.length,
      xs.getD i default ∉ xs.eraseIdx i
  | [], _, i, hi => absurd hi (by simp)
  | a :: rest, hnd, 0, hi => by
    simpa using (List.nodup_cons.1 hnd).1
  | a :: rest, hnd, i + 1, hi => by
    simp only [List.getD_cons_succ, List.eraseIdx_cons_succ]
    intro hmem
    rcases List.mem_cons.1 hmem with h | h
    · have hget : rest.getD i default ∈ rest := by
        have hir : i < rest.length := by simpa using hi
        rw [List.getD_eq_getElem rest default hir]
        exact List.getElem_mem hir
      rw [h] at hget
      exact (List.nodup_cons.1 hnd).1 hget
    · exact getD_not_mem_eraseIdx rest (List.nodup_cons.1 hnd).2 i
        (by simpa using hi) h

/-- `random.sample` of a duplicate-free population yields a
duplicate-free sample. -/
theorem pySample_nodup {α : Type} [Inhabited α] (pick : ℕ → ℕ) :
    ∀ (xs : List α) (k i : ℕ) (out : List α), xs.Nodup →
      pySample pick xs k i = some out → out.Nodup
  | xs, 0, i, out, hnd, heq => by
    unfold pySample at heq
    cases heq
    exact List.nodup_nil
  | xs, k + 1, i, out, hnd, heq => by
    unfold pySample at heq
    split at heq
    · cases heq
    · dsimp only at heq
      rcases Option.map_eq_some'.1 heq with ⟨r, hr, hxr⟩
      rename_i hlen
      have hidx : pick i % xs.length < xs.length :=
        Nat.mod_lt _ (Nat.pos_of_ne_zero hlen)
      rw [← hxr]
      refine List.nodup_cons.2 ⟨?_, ?_⟩
      · intro hmem
        exact getD_not_mem_eraseIdx xs hnd _ hidx
          (pySample_subset pick _ k (i + 1) r hr _ hmem)
      · exact pySample_nodup pick _ k (i + 1) r
          ((List.eraseIdx_sublist xs _).nodup hnd) hr

/-- The first pass emits at most as many responses for a review id as
that id occurs among the reviews. -/
theorem hrFirstPass_count (env : HREnv) :
    ∀ (l : List ℕ) (i rid : ℕ),
      ((hrFirstPass env l i).map (fun r => r.reviewId)).count rid ≤ l.count rid
  | [], _, _ => le_refl _
  | rid2 :: rest, i, rid => by
    unfold hrFirstPass
    split
    · simp only [List.map_cons, List.count_cons]
      have := hrFirstPass_count env rest (i + 1) rid
      omega
    · simp only [List.count_cons]
      have := hrFirstPass_count env rest (i + 1) rid
      omega

/-- C7 (amended): each ReviewID receives at most one response from the
50% first pass and at most one from the top-up sample (drawn without
replacement), hence at most two response rows per ReviewID — but not
at most one, since the top-up sample may pick an already-responded
review (see the counterexample). -/
theorem C7_response_per_review_amended (env : HREnv) (reviews : List ℕ)
    (minr : ℕ) (hnd : reviews.Nodup) (rid : ℕ) :
    ((populate_host_response_table env reviews minr).map
      (fun r => r.reviewId)).count rid ≤ 2 := by
  have hfirst : ((hrFirstPass env reviews 0).map (fun r => r.reviewId)).count rid ≤ 1 :=
    le_trans (hrFirstPass_count env reviews 0 rid)
      (List.nodup_iff_count_le_one.1 hnd rid)
  unfold populate_host_response_table
  split
  · simp
  · split
    · simp
    · dsimp only
      split
      · split
        · simp
        · rename_i additional heq
          have hadd : additional.Nodup :=
            pySample_nodup env.samplePick reviews _ 0 additional hnd heq
          have haddc : additional.count rid ≤ 1 :=
            List.nodup_iff_count_le_one.1 hadd rid
          have henum : (additional.enum.map
              (fun p => (⟨p.2, env.text2 p.1⟩ : HostResponseRow))).map
                (fun r => r.reviewId) = additional := by
            rw [List.map_map]
            have : ((fun r : HostResponseRow => r.reviewId) ∘
                (fun p : ℕ × ℕ => (⟨p.2, env.text2 p.1⟩ : HostResponseRow))) =
                Prod.snd := rfl
            rw [this, List.enum_map_snd]
          rw [List.map_append, List.count_append, henum]
          omega
      · exact le_trans hfirst (by norm_num)

/-- Witness for C7 (amended) at a concrete instance. -/
theorem C7_response_per_review_amended_witness :
    ((populate_host_response_table hrEnv0 [1, 2] 2).map
      (fun r => r.reviewId)).count 1 ≤ 2 :=
  C7_response_per_review_amended hrEnv0 [1, 2] 2 (by decide) 1

/-- Counterexample to C7 as stated: with reviews [1, 2] and
min_responses = 2, a coin that accepts only review 1 and a sampler
that picks position 0 produce two responses for review 1. -/
theorem C7_response_per_review_counterexample :
    (populate_host_response_table hrEnv0 [1, 2] 2).map
      (fun r => r.reviewId) = [1, 1] ∧
    ¬ (((populate_host_response_table hrEnv0 [1, 2] 2).map
      (fun r => r.reviewId)).count 1 ≤ 1) := by
  constructor
  · decide
  · decide

/-- C10: populate_user_table always produces exactly
`max(num_users, 20 × min_admins)` rows; with the defaults
`num_users = 100`, `min_admins = 20` that is 400 rows, four times the
requested 100. -/
theorem C10_user_row_count :
    (∀ (env : UserEnv) (num_users min_admins : ℕ),
      (populate_user_table env num_users min_admins).length =
        max num_users (20 * min_admins)) ∧
    (∀ env : UserEnv, (populate_user_table env 100 20).length = 400) := by
  have key : ∀ (env : UserEnv) (num_users min_admins : ℕ),
      (populate_user_table env num_users min_admins).length =
        max num_users (20 * min_admins) := by
    intro env num_users min_admins
    have h := congrArg List.length (populate_user_table_types env num_users min_admins)
    rw [List.length_map] at h
    rw [h]
    simp [List.length_append, List.length_replicate]
    omega
  exact ⟨key, fun env => by rw [key]; norm_num⟩

end GenData
